import Mathlib

/-!
Shallow embedding of the Voltasis MCP documentation server.

The definitions below are translated from the repository's TypeScript
sources, chiefly:
* `src/infrastructure/lambda/mcp-server/handler.ts` — the Lambda-hosted
  MCP request router, tool dispatch, pagination and response-size guard;
* `src/unnamed/part_007` — the local stdio server together with
  `DocumentManager` (document index, `searchDocuments`);
* `src/src/mcp/protocol.ts` — the local `MCPProtocolHandler`;
* `src/unnamed/part_008` — the stdio-to-HTTPS bridge with its
  response-ordering queue (`responseQueue` / `lastSentId` /
  `sendQueuedResponses`).

JavaScript semantics that matter to the embedded code (truthiness of
strings, `undefined` interpolation into template literals, `x || y`
fallbacks, `Array.prototype.slice` clamping, `Math.ceil` on a division
by zero yielding `Infinity`/`NaN`) are modelled explicitly by the small
`js*` helpers.  Strings are Lean `String`s; case-insensitive matching is
modelled on `List Char` with `Char.toLower` (the embedded code only ever
lowercases ASCII identifiers and prose).
-/

namespace Voltasis

/-! ### JavaScript-semantics helpers -/

/-- JS `Array.prototype.slice(start, end)` for non-negative in-range
arguments: the elements at indices `start ≤ i < end`. -/
def jsSlice {α : Type} (l : List α) (start stop : Nat) : List α :=
  (l.take stop).drop start

/-- The value of a JS `number` produced by `Math.ceil(a / b)` on
non-negative integers: a natural number, or `Infinity` (`b = 0`, `a ≠ 0`),
or `NaN` (`0 / 0`). -/
inductive JNum where
  | nat (n : Nat)
  | posInf
  | nan
  deriving DecidableEq, Repr

/-- JS `Math.ceil(a / b)` for natural `a`, `b`. -/
def jsCeilDiv (a b : Nat) : JNum :=
  if b = 0 then (if a = 0 then JNum.nan else JNum.posInf)
  else JNum.nat ((a + b - 1) / b)

/-- JS comparison `page < t - 1` where `t` is the (possibly infinite or
NaN) `totalPages` value: `NaN` comparisons are false, `Infinity - 1` is
`Infinity`. -/
def jsLtPredTotal (page : Nat) : JNum → Bool
  | JNum.nat n => decide ((page : Int) < (n : Int) - 1)
  | JNum.posInf => true
  | JNum.nan => false

/-- JS string interpolation `${x}` of a possibly-`undefined` string. -/
def jsInterp (o : Option String) : String :=
  match o with
  | some s => s
  | none => "undefined"

/-- JS `Array.prototype.join(sep)`. -/
def jsJoin (sep : String) : List String → String
  | [] => ""
  | [s] => s
  | s :: rest => s ++ sep ++ jsJoin sep rest

/-- JS `tags?.join(sep)` interpolated into a template literal:
`undefined` renders as `"undefined"`. -/
def jsInterpJoin (sep : String) (o : Option (List String)) : String :=
  match o with
  | some ts => jsJoin sep ts
  | none => "undefined"

/-- JS `d || fallback` for a possibly-`undefined` string `d`
(the empty string is falsy). -/
def jsOrStr (d : Option String) (fallback : String) : String :=
  match d with
  | some s => if s = "" then fallback else s
  | none => fallback

/-- JS `tags?.join(', ') || ''`. -/
def jsTagsJoinOrEmpty (o : Option (List String)) : String :=
  match o with
  | some ts => jsJoin ", " ts
  | none => ""

/-- JS `tags?.includes(t)` coerced to a boolean (`undefined` is falsy). -/
def jsOptIncludes (o : Option (List String)) (t : String) : Bool :=
  match o with
  | some ts => ts.contains t
  | none => false

/-- Case-insensitive character list of a string (`s.toLowerCase()`). -/
def lowChars (s : String) : List Char :=
  s.data.map Char.toLower

/-- JS `haystack.includes(needle)` on character lists. -/
def containsSub (pat : List Char) : List Char → Bool
  | [] => pat.isEmpty
  | c :: rest => pat.isPrefixOf (c :: rest) || containsSub pat rest

/-! ### Data model

A row of the DynamoDB index table under the `DOCUMENT` partition, with
the attributes the handlers read.  `description`, `tags`, `path`,
`method` and `s3Key` may be absent (`undefined` in JS).  `deleted` is
the soft-delete status attribute written by the webhook pipeline; rows
may or may not carry it, and — as the theorems below establish — no
listing or search handler ever reads it. -/

structure Item where
  id : String
  title : String
  description : Option String
  tags : Option (List String)
  category : String
  path : Option String
  method : Option String
  s3Key : Option String
  deleted : Option Bool
  deriving DecidableEq, Repr

/-! ### Pagination (handler.ts, the identical inline block of
`listEndpoints` lines 893–900, `listSchemas` 989–996, `listGuides`
1109–1116, `listResources` 1163–1170) -/

structure Pagination where
  page : Nat
  pageSize : Nat
  totalPages : JNum
  totalItems : Nat
  hasMore : Bool
  deriving DecidableEq, Repr

/-- The pagination block shared verbatim by the four list tools:
`totalItems = list.length`, `totalPages = Math.ceil(totalItems/pageSize)`,
`startIndex = page*pageSize`, `endIndex = min(startIndex+pageSize,
totalItems)`, returned page `list.slice(startIndex, endIndex)` and the
metadata object `{page, pageSize, totalPages, totalItems, hasMore: page <
totalPages - 1}`. -/
def paginate {α : Type} (l : List α) (page pageSize : Nat) :
    List α × Pagination :=
  let totalItems := l.length
  let totalPages := jsCeilDiv totalItems pageSize
  let startIndex := page * pageSize
  let endIndex := min (startIndex + pageSize) totalItems
  (jsSlice l startIndex endIndex,
   ⟨page, pageSize, totalPages, totalItems, jsLtPredTotal page totalPages⟩)

/-! ### The four list tools (handler.ts) -/

/-- Arguments object of the paginated list tools: every field may be
absent.  Destructuring defaults `page = 0`, `pageSize = 50` apply when
the field is absent; nothing clamps supplied values. -/
structure ListArgs where
  tag : Option String
  category : Option String
  page : Option Nat
  pageSize : Option Nat
  deriving DecidableEq, Repr

/-- `list_endpoints` candidate list (handler.ts 870–891): DynamoDB query
with `FilterExpression category = 'api'`, then
`item.tags && item.tags.includes('endpoint')`, then — only when the
`tag` argument is truthy — `item.tags?.includes(tag)`. -/
def listEndpointsCandidates (store : List Item) (tag : Option String) :
    List Item :=
  let endpoints := store.filter (fun it => it.category == "api")
  let endpoints := endpoints.filter
    (fun it => it.tags.isSome && jsOptIncludes it.tags "endpoint")
  match tag with
  | some t => if t = "" then endpoints
              else endpoints.filter (fun it => jsOptIncludes it.tags t)
  | none => endpoints

structure EndpointSummary where
  id : String
  path : Option String
  method : Option String
  title : String
  tags : List String
  deriving DecidableEq, Repr

def endpointSummary (it : Item) : EndpointSummary :=
  ⟨it.id, it.path, it.method, it.title, it.tags.getD []⟩

structure ListEndpointsResult where
  endpoints : List EndpointSummary
  pagination : Pagination
  deriving DecidableEq, Repr

/-- `listEndpoints` (handler.ts 867–924). -/
def listEndpointsTool (store : List Item) (args : ListArgs) :
    ListEndpointsResult :=
  let page := args.page.getD 0
  let pageSize := args.pageSize.getD 50
  let endpoints := listEndpointsCandidates store args.tag
  let r := paginate endpoints page pageSize
  ⟨r.1.map endpointSummary, r.2⟩

/-- `list_schemas` candidate list (handler.ts 971–987): category `'api'`
and `item.tags && item.tags.includes('schema')`. -/
def listSchemasCandidates (store : List Item) : List Item :=
  (store.filter (fun it => it.category == "api")).filter
    (fun it => it.tags.isSome && jsOptIncludes it.tags "schema")

structure SchemaSummary where
  id : String
  name : String
  description : String
  tags : List String
  deriving DecidableEq, Repr

def schemaSummary (it : Item) : SchemaSummary :=
  ⟨it.id, it.title, jsOrStr it.description "", it.tags.getD []⟩

structure ListSchemasResult where
  schemas : List SchemaSummary
  pagination : Pagination
  deriving DecidableEq, Repr

/-- `listSchemas` (handler.ts 968–1019). -/
def listSchemasTool (store : List Item) (args : ListArgs) :
    ListSchemasResult :=
  let page := args.page.getD 0
  let pageSize := args.pageSize.getD 50
  let schemas := listSchemasCandidates store
  let r := paginate schemas page pageSize
  ⟨r.1.map schemaSummary, r.2⟩

/-- `list_guides` candidate list (handler.ts 1097–1107): the DynamoDB
filter `category = 'guide'` only. -/
def listGuidesCandidates (store : List Item) : List Item :=
  store.filter (fun it => it.category == "guide")

structure GuideSummary where
  id : String
  title : String
  description : String
  tags : List String
  path : Option String
  deriving DecidableEq, Repr

def guideSummary (it : Item) : GuideSummary :=
  ⟨it.id, it.title, jsOrStr it.description "", it.tags.getD [], it.path⟩

structure ListGuidesResult where
  guides : List GuideSummary
  pagination : Pagination
  deriving DecidableEq, Repr

/-- `listGuides` (handler.ts 1093–1140). -/
def listGuidesTool (store : List Item) (args : ListArgs) :
    ListGuidesResult :=
  let page := args.page.getD 0
  let pageSize := args.pageSize.getD 50
  let guides := listGuidesCandidates store
  let r := paginate guides page pageSize
  ⟨r.1.map guideSummary, r.2⟩

/-- `list_resources` candidate list (handler.ts 1146–1161): the category
filter is attached only when `category !== 'all'`. -/
def listResourcesCandidates (store : List Item) (category : String) :
    List Item :=
  if category ≠ "all" then store.filter (fun it => it.category == category)
  else store

structure ResourceSummary where
  id : String
  uri : String
  title : String
  category : String
  description : String
  tags : List String
  mimeType : String
  deriving DecidableEq, Repr

def resourceSummary (it : Item) : ResourceSummary :=
  ⟨it.id, "voltasis://" ++ it.id, it.title, it.category,
   jsOrStr it.description (jsTagsJoinOrEmpty it.tags),
   it.tags.getD [], "text/markdown"⟩

structure ListResourcesResult where
  resources : List ResourceSummary
  pagination : Pagination
  deriving DecidableEq, Repr

/-- `listResources` (handler.ts 1142–1200); `category` defaults to
`'all'` when absent. -/
def listResourcesTool (store : List Item) (args : ListArgs) :
    ListResourcesResult :=
  let category := args.category.getD "all"
  let page := args.page.getD 0
  let pageSize := args.pageSize.getD 50
  let resources := listResourcesCandidates store category
  let r := paginate resources page pageSize
  ⟨r.1.map resourceSummary, r.2⟩

/-! ### `search_documentation` (handler.ts 800–836) -/

/-- The candidate set of the search: all `DOCUMENT` rows, restricted by
the DynamoDB `FilterExpression category = :category` exactly when the
category argument differs from `'all'`. -/
def searchCandidates (store : List Item) (category : String) : List Item :=
  if category ≠ "all" then store.filter (fun it => it.category == category)
  else store

/-- The searchable text of a row (handler.ts 821):
`` `${item.title} ${item.description} ${item.tags?.join(' ')}` `` —
absent fields interpolate as the string `"undefined"`. -/
def searchableText (it : Item) : String :=
  it.title ++ " " ++ jsInterp it.description ++ " " ++
    jsInterpJoin " " it.tags

/-- handler.ts 820–822: `searchableText.toLowerCase().includes(
query.toLowerCase())`. -/
def searchMatch (q : String) (it : Item) : Bool :=
  containsSub (lowChars q) (lowChars (searchableText it))

structure SearchResult where
  id : String
  title : String
  uri : String
  tags : List String
  deriving DecidableEq, Repr

def searchResultOf (it : Item) : SearchResult :=
  ⟨it.id, it.title, "voltasis://" ++ it.id, it.tags.getD []⟩

/-- The `results` list of `searchDocumentation` for query `q` and
effective category `category` (handler.ts 809–829). -/
def searchResults (store : List Item) (q : String) (category : String) :
    List SearchResult :=
  ((searchCandidates store category).filter (searchMatch q)).map
    searchResultOf

/-- Modelled from the spec (claim C4's reading of the contract, §4.2):
a document matches when its **title, description, or tags** contain the
query as a case-insensitive substring — each field tested on its own,
a missing field matching nothing. -/
def specFieldMatch (q : String) (it : Item) : Bool :=
  containsSub (lowChars q) (lowChars it.title) ||
  (match it.description with
   | some d => containsSub (lowChars q) (lowChars d)
   | none => false) ||
  (match it.tags with
   | some ts => ts.any (fun t => containsSub (lowChars q) (lowChars t))
   | none => false)

/-! ### Generic pagination lemmas -/

/-- `ceil(a / b)` on naturals, as the handlers compute it for `b ≥ 1`. -/
def ceilDivNat (a b : Nat) : Nat := (a + b - 1) / b

/-- The property claimed for every paginated list tool: the returned
page is the slice `list.slice(page*pageSize, min((page+1)*pageSize,
N))`, the metadata is `{page, pageSize, totalPages = ceil(N/pageSize),
totalItems = N, hasMore = page < totalPages - 1}`, the concatenation of
pages `0 .. totalPages-1` is the whole candidate list, and `hasMore`
holds exactly off the last page. -/
def PagesSpec {α β : Type} (cand : List α) (proj : α → β)
    (run : Nat → List β × Pagination) (p : Nat) : Prop :=
  (∀ page, (run page).1 =
    (jsSlice cand (page * p) (min ((page + 1) * p) cand.length)).map proj) ∧
  (∀ page, (run page).2 =
    ⟨page, p, JNum.nat (ceilDivNat cand.length p), cand.length,
     decide ((page : Int) < ((ceilDivNat cand.length p : Nat) : Int) - 1)⟩) ∧
  ((List.range (ceilDivNat cand.length p)).flatMap (fun k => (run k).1) =
    cand.map proj) ∧
  (∀ page, page + 1 < ceilDivNat cand.length p →
    (run page).2.hasMore = true) ∧
  (0 < ceilDivNat cand.length p →
    (run (ceilDivNat cand.length p - 1)).2.hasMore = false)

/-! ### `resources/list` method (handler.ts 647–674): maps every
`DOCUMENT` row, no filter, no pagination. -/

structure ResourceEntry where
  uri : String
  name : String
  description : String
  mimeType : String
  deriving DecidableEq, Repr

def handleResourcesListEntries (store : List Item) : List ResourceEntry :=
  store.map (fun it =>
    ⟨"voltasis://" ++ it.id, it.title,
     jsOrStr it.description (jsTagsJoinOrEmpty it.tags), "text/markdown"⟩)


/-- A `DocumentReference` of the local server's index (part_007 /
document.types): id, title, path, tags — note there is **no
description field** in the local index at all. -/
structure DocRef where
  id : String
  title : String
  path : String
  tags : List String
  deriving DecidableEq, Repr

/-- `DocumentIndex.categories` (part_007 108–118): the three keys are
`api`, `guides`, `reference`. -/
structure LocalIndex where
  api : List DocRef
  guides : List DocRef
  reference : List DocRef

/-- The per-document test of `DocumentManager.searchDocuments`
(part_007 193–196): title, or some single tag, contains the lowercased
query — descriptions are not searched. -/
def localDocMatch (q : String) (d : DocRef) : Bool :=
  containsSub (lowChars q) (lowChars d.title) ||
  d.tags.any (fun t => containsSub (lowChars q) (lowChars t))

/-- `DocumentManager.searchDocuments` (part_007 180–202).  With
`category` falsy or `'all'` every category is searched in key order;
otherwise `this.index.categories[category]` is read — only `api`,
`guides` and `reference` exist as keys, so any other value (including
the tool enum's `'guide'`) yields `undefined` and the following
`for (const doc of docs)` throws a TypeError (`Except.error`), which
`handleRequest`'s catch turns into a `-32603` internal error. -/
def localSearchDocuments (idx : LocalIndex) (q : String)
    (category : Option String) : Except Unit (List DocRef) :=
  let alldocs := idx.api ++ idx.guides ++ idx.reference
  match category with
  | none => Except.ok (alldocs.filter (localDocMatch q))
  | some c =>
    if c = "" then Except.ok (alldocs.filter (localDocMatch q))
    else if c = "all" then Except.ok (alldocs.filter (localDocMatch q))
    else if c = "api" then Except.ok (idx.api.filter (localDocMatch q))
    else if c = "guides" then Except.ok (idx.guides.filter (localDocMatch q))
    else if c = "reference" then
      Except.ok (idx.reference.filter (localDocMatch q))
    else Except.error ()

/-! ### C2: response ordering of the stdio-to-HTTPS bridge (part_008) -/

/-- State of the ordering buffer of the stdio bridge
(`src/unnamed/part_008` 33–46): `pending` models the key set of
`responseQueue` (each id arrives at most once), `next` models
`lastSentId + 1` (the bridge initialises `lastSentId = -1`, so `next`
starts at `0`), `out` is the sequence of response ids written to
stdout. -/
structure QState where
  pending : List Nat
  next : Nat
  out : List Nat
  deriving DecidableEq, Repr

/-- The `while (responseQueue.has(lastSentId + 1))` loop of
`sendQueuedResponses`, with explicit fuel; each iteration removes one
queue entry, so `pending.length` fuel always suffices. -/
def flushAux : Nat → QState → QState
  | 0, s => s
  | fuel + 1, s =>
    if s.next ∈ s.pending then
      flushAux fuel ⟨s.pending.erase s.next, s.next + 1, s.out ++ [s.next]⟩
    else s

/-- `sendQueuedResponses` (part_008 38–46). -/
def sendQueuedResponses (s : QState) : QState :=
  flushAux s.pending.length s

/-- Arrival of the HTTPS response for request id `i`
(part_008 113–133): `responseQueue.set(message.id, response);
sendQueuedResponses();`. -/
def receiveResponse (s : QState) (i : Nat) : QState :=
  sendQueuedResponses ⟨s.pending.insert i, s.next, s.out⟩

def initialQState : QState := ⟨[], 0, []⟩

/-- The bridge's output after the responses for the given ids have
arrived, in the given arrival (completion) order. -/
def runResponses (arrivals : List Nat) : QState :=
  arrivals.foldl receiveResponse initialQState

/-- Invariant of the ordering buffer: `seen` is the set of ids whose
responses have arrived so far. -/
def QInv (seen : List Nat) (s : QState) : Prop :=
  s.out = List.range s.next ∧
  (∀ j, j ∈ s.pending ↔ j ∈ seen ∧ s.next ≤ j) ∧
  (∀ j, j < s.next → j ∈ seen) ∧
  s.pending.Nodup ∧
  s.next ∉ s.pending

/-! ### JSON-RPC envelope model (handler.ts 27–43, 1253–1268)

`JVal` models the JSON values placed in `result` / `error.data`.
JSON.stringify itself (and the byte serialisation of the whole envelope)
is an external JS builtin; the routing theorems quantify over it. -/

inductive RpcId where
  | str (s : String)
  | num (n : Int)
  deriving DecidableEq, Repr

inductive JVal where
  | jnull
  | jbool (b : Bool)
  | jnum (n : Int)
  | jstr (s : String)
  | jarr (xs : List JVal)
  | jobj (fields : List (String × JVal))

structure RpcError where
  code : Int
  message : String
  data : Option JVal

/-- A JSON-RPC response envelope (`jsonrpc: "2.0"` is a constant and
elided; `id = none` models the `null`/absent id of the top-level catch
path). -/
structure MCPResponse where
  id : Option RpcId
  result : Option JVal
  error : Option RpcError

/-- `createErrorResponse` (handler.ts 1253–1268). -/
def createErrorResponse (id : Option RpcId) (code : Int) (message : String) :
    MCPResponse :=
  ⟨id, none, some ⟨code, message, none⟩⟩

/-! ### Request model

`JSON.parse` is an external builtin: the transport input is either a
parse failure (carrying the JS error message) or the parsed request
object, of which the handlers read only the fields below.  The
`jsonrpc` field is carried but — as C7's theorems show — never read. -/

/-- The `messages` parameter of `sampling/createMessage` as the check
`!messages || !Array.isArray(messages) || messages.length === 0`
distinguishes it: absent (or any falsy value), a truthy non-array, or
an array of `n` messages. -/
inductive MessagesField where
  | absent
  | nonArray
  | array (n : Nat)
  deriving DecidableEq, Repr

/-- The fields of a `tools/call` `arguments` object that some tool
reads. -/
structure ToolArgs where
  query : Option String
  category : Option String
  tag : Option String
  page : Option Nat
  pageSize : Option Nat
  endpoint : Option String
  method : Option String
  schemaName : Option String
  format : Option String
  documentId : Option String

def emptyToolArgs : ToolArgs :=
  ⟨none, none, none, none, none, none, none, none, none, none⟩

/-- The fields of `request.params` that some method handler reads. -/
structure ReqParams where
  protocolVersion : Option String
  name : Option String
  uri : Option String
  arguments : Option ToolArgs
  messages : MessagesField

def emptyReqParams : ReqParams := ⟨none, none, none, none, MessagesField.absent⟩

structure RawRequest where
  jsonrpc : Option String
  id : Option RpcId
  method : Option String
  params : Option ReqParams

/-! ### Store/blob lookups and small string helpers -/

/-- DynamoDB `GetCommand {PK: 'DOCUMENT', SK: documentId}`: the sort key
of a document row is its id. -/
def findItem (store : List Item) (documentId : String) : Option Item :=
  store.find? (fun it => it.id == documentId)

/-- S3 `GetObjectCommand {Key: key}`; `none` models the thrown
`NoSuchKey` error. -/
def findBlob (blob : List (String × String)) (key : String) :
    Option String :=
  (blob.find? (fun kv => kv.1 == key)).map (fun kv => kv.2)

/-- JS `s.toLowerCase()`. -/
def lowerStr (s : String) : String := String.mk (s.data.map Char.toLower)

/-- `endpoint.replace(/\//g, '-')` (handler.ts 846). -/
def replaceSlashes (s : String) : String :=
  String.mk (s.data.map (fun c => if c = '/' then '-' else c))

def replaceFirstAux (pat sub : List Char) : List Char → List Char
  | [] => []
  | c :: rest =>
    if pat.isPrefixOf (c :: rest) then sub ++ (c :: rest).drop pat.length
    else c :: replaceFirstAux pat sub rest

/-- JS `s.replace(pat, sub)` with a string pattern: replaces the first
occurrence only (handler.ts 685). -/
def jsReplaceFirst (s pat sub : String) : String :=
  String.mk (replaceFirstAux pat.data sub.data s.data)

/-! ### JVal encoders for the handler's result objects.
`JSON.stringify` drops object keys holding `undefined`, hence the
optional-field helper. -/

def optField (k : String) (v : Option JVal) : List (String × JVal) :=
  match v with
  | some x => [(k, x)]
  | none => []

def encodeStrList (l : List String) : JVal := JVal.jarr (l.map JVal.jstr)

/-- `JSON.stringify(Infinity)` and `JSON.stringify(NaN)` are `null`. -/
def encodeJNum : JNum → JVal
  | JNum.nat n => JVal.jnum n
  | JNum.posInf => JVal.jnull
  | JNum.nan => JVal.jnull

def encodePagination (p : Pagination) : JVal :=
  JVal.jobj [("page", JVal.jnum p.page), ("pageSize", JVal.jnum p.pageSize),
    ("totalPages", encodeJNum p.totalPages),
    ("totalItems", JVal.jnum p.totalItems), ("hasMore", JVal.jbool p.hasMore)]

def encodeEndpointSummary (e : EndpointSummary) : JVal :=
  JVal.jobj ([("id", JVal.jstr e.id)] ++
    optField "path" (e.path.map JVal.jstr) ++
    optField "method" (e.method.map JVal.jstr) ++
    [("title", JVal.jstr e.title), ("tags", encodeStrList e.tags)])

def encodeSchemaSummary (e : SchemaSummary) : JVal :=
  JVal.jobj [("id", JVal.jstr e.id), ("name", JVal.jstr e.name),
    ("description", JVal.jstr e.description),
    ("tags", encodeStrList e.tags)]

def encodeGuideSummary (e : GuideSummary) : JVal :=
  JVal.jobj ([("id", JVal.jstr e.id), ("title", JVal.jstr e.title),
    ("description", JVal.jstr e.description),
    ("tags", encodeStrList e.tags)] ++
    optField "path" (e.path.map JVal.jstr))

def encodeResourceSummary (e : ResourceSummary) : JVal :=
  JVal.jobj [("id", JVal.jstr e.id), ("uri", JVal.jstr e.uri),
    ("title", JVal.jstr e.title), ("category", JVal.jstr e.category),
    ("description", JVal.jstr e.description),
    ("tags", encodeStrList e.tags), ("mimeType", JVal.jstr e.mimeType)]

def encodeSearchResult (e : SearchResult) : JVal :=
  JVal.jobj [("id", JVal.jstr e.id), ("title", JVal.jstr e.title),
    ("uri", JVal.jstr e.uri), ("tags", encodeStrList e.tags),
    ("relevance", JVal.jnum 1)]

def encodeResourceEntry (e : ResourceEntry) : JVal :=
  JVal.jobj [("uri", JVal.jstr e.uri), ("name", JVal.jstr e.name),
    ("description", JVal.jstr e.description),
    ("mimeType", JVal.jstr e.mimeType)]

/-- The raw DynamoDB row as `getEndpointDetails` returns it
(`result: {endpoint: response.Item}`): every stored attribute, absent
attributes dropped by serialisation. -/
def encodeItem (it : Item) : JVal :=
  JVal.jobj ([("id", JVal.jstr it.id), ("title", JVal.jstr it.title)] ++
    optField "description" (it.description.map JVal.jstr) ++
    optField "tags" (it.tags.map encodeStrList) ++
    [("category", JVal.jstr it.category)] ++
    optField "path" (it.path.map JVal.jstr) ++
    optField "method" (it.method.map JVal.jstr) ++
    optField "s3Key" (it.s3Key.map JVal.jstr) ++
    optField "deleted" (it.deleted.map JVal.jbool))

/-! ### Tool implementations as JSON-RPC responses (handler.ts 800–1200)

Each mirrors its handler; `Except.error ()` models a JS exception
escaping the tool (only `getSchema` can throw — its S3 fetch has no
surrounding `try`). -/

/-- Normalise a possibly-absent string by JS truthiness (`""` is
falsy). -/
def jsStrOpt (o : Option String) : Option String :=
  match o with
  | some s => if s = "" then none else some s
  | none => none

/-- `searchDocumentation` (handler.ts 800–836). -/
def searchDocumentationRPC (store : List Item) (id : Option RpcId)
    (args : Option ToolArgs) : MCPResponse :=
  let a := args.getD emptyToolArgs
  match jsStrOpt a.query with
  | none => createErrorResponse id (-32602) "Missing required parameter: query"
  | some q =>
    let category := a.category.getD "all"
    ⟨id, some (JVal.jobj [("results",
      JVal.jarr ((searchResults store q category).map encodeSearchResult))]),
     none⟩

/-- `getEndpointDetails` (handler.ts 838–865). -/
def getEndpointDetailsRPC (store : List Item) (id : Option RpcId)
    (args : Option ToolArgs) : MCPResponse :=
  let a := args.getD emptyToolArgs
  match jsStrOpt a.endpoint with
  | none =>
    createErrorResponse id (-32602) "Missing required parameter: endpoint"
  | some ep =>
    let documentId := "api-" ++ replaceSlashes ep ++
      (match jsStrOpt a.method with
       | some m => "-" ++ lowerStr m
       | none => "")
    match findItem store documentId with
    | none => createErrorResponse id (-32602) ("Endpoint not found: " ++ ep)
    | some it => ⟨id, some (JVal.jobj [("endpoint", encodeItem it)]), none⟩

/-- `listEndpoints` as a JSON-RPC response (handler.ts 867–924). -/
def listEndpointsRPC (store : List Item) (id : Option RpcId)
    (args : Option ToolArgs) : MCPResponse :=
  let a := args.getD emptyToolArgs
  let r := listEndpointsTool store ⟨a.tag, a.category, a.page, a.pageSize⟩
  ⟨id, some (JVal.jobj [
    ("endpoints", JVal.jarr (r.endpoints.map encodeEndpointSummary)),
    ("pagination", encodePagination r.pagination)]), none⟩

/-- `getSchema` (handler.ts 926–966); the S3 fetch is not wrapped in a
`try`, so a missing blob is a thrown exception escaping the tool. -/
def getSchemaRPC (store : List Item) (blob : List (String × String))
    (id : Option RpcId) (args : Option ToolArgs) :
    Except Unit MCPResponse :=
  let a := args.getD emptyToolArgs
  match jsStrOpt a.schemaName with
  | none => Except.ok
      (createErrorResponse id (-32602) "Missing required parameter: schemaName")
  | some sn =>
    let format := a.format.getD "typescript"
    let documentId := "schema-" ++ lowerStr sn
    match findItem store documentId with
    | none => Except.ok
        (createErrorResponse id (-32602) ("Schema not found: " ++ sn))
    | some it =>
      let key := (jsStrOpt it.s3Key).getD
        ("schemas/" ++ documentId ++ "." ++ format)
      match findBlob blob key with
      | none => Except.error ()
      | some content => Except.ok ⟨id, some (JVal.jobj [("schema",
          JVal.jobj [("name", JVal.jstr sn), ("format", JVal.jstr format),
            ("content", JVal.jstr content)])]), none⟩

/-- `listSchemas` as a JSON-RPC response (handler.ts 968–1019). -/
def listSchemasRPC (store : List Item) (id : Option RpcId)
    (args : Option ToolArgs) : MCPResponse :=
  let a := args.getD emptyToolArgs
  let r := listSchemasTool store ⟨a.tag, a.category, a.page, a.pageSize⟩
  ⟨id, some (JVal.jobj [
    ("schemas", JVal.jarr (r.schemas.map encodeSchemaSummary)),
    ("pagination", encodePagination r.pagination)]), none⟩

/-- The S3 key `getDocument` constructs when the row carries none
(handler.ts 1042–1064). -/
def documentS3Key (it : Item) (documentId : String) : String :=
  match jsStrOpt it.s3Key with
  | some k => k
  | none =>
    if it.category = "guide" then "guides/" ++ documentId ++ ".md"
    else if it.category = "api" then
      if (it.tags.getD []).contains "endpoint" then
        "api/endpoints/" ++ documentId ++ ".md"
      else if (it.tags.getD []).contains "schema" then
        "api/schemas/" ++ documentId ++ ".md"
      else "api/" ++ documentId ++ ".md"
    else if it.category = "reference" then
      "reference/" ++ documentId ++ ".md"
    else documentId ++ ".md"

/-- `getDocument` (handler.ts 1021–1091); its own `try` converts a
missing blob into `-32603 Failed to get document`. -/
def getDocumentRPC (store : List Item) (blob : List (String × String))
    (id : Option RpcId) (args : Option ToolArgs) : MCPResponse :=
  let a := args.getD emptyToolArgs
  match jsStrOpt a.documentId with
  | none =>
    createErrorResponse id (-32602) "Missing required parameter: documentId"
  | some documentId =>
    match findItem store documentId with
    | none =>
      createErrorResponse id (-32602) ("Document not found: " ++ documentId)
    | some it =>
      match findBlob blob (documentS3Key it documentId) with
      | none => createErrorResponse id (-32603) "Failed to get document"
      | some content => ⟨id, some (JVal.jobj [("document", JVal.jobj
          [("id", JVal.jstr documentId), ("title", JVal.jstr it.title),
           ("category", JVal.jstr it.category),
           ("tags", encodeStrList (it.tags.getD [])),
           ("content", JVal.jstr content)])]), none⟩

/-- `listGuides` as a JSON-RPC response (handler.ts 1093–1140). -/
def listGuidesRPC (store : List Item) (id : Option RpcId)
    (args : Option ToolArgs) : MCPResponse :=
  let a := args.getD emptyToolArgs
  let r := listGuidesTool store ⟨a.tag, a.category, a.page, a.pageSize⟩
  ⟨id, some (JVal.jobj [
    ("guides", JVal.jarr (r.guides.map encodeGuideSummary)),
    ("pagination", encodePagination r.pagination)]), none⟩

/-- `listResources` as a JSON-RPC response (handler.ts 1142–1200). -/
def listResourcesRPC (store : List Item) (id : Option RpcId)
    (args : Option ToolArgs) : MCPResponse :=
  let a := args.getD emptyToolArgs
  let r := listResourcesTool store ⟨a.tag, a.category, a.page, a.pageSize⟩
  ⟨id, some (JVal.jobj [
    ("resources", JVal.jarr (r.resources.map encodeResourceSummary)),
    ("pagination", encodePagination r.pagination)]), none⟩

/-! ### Method handlers (handler.ts 182–725, 1202–1251) -/

/-- `handleInitialize` (handler.ts 182–215): echoes the client's
protocol version (defaulting to `2024-11-05`), fixed capabilities, and
server info (`environment` is the `STAGE` env var). -/
def handleInitialize (stage : Option String) (req : RawRequest) :
    MCPResponse :=
  let clientProtocolVersion :=
    jsOrStr (req.params.bind (fun p => p.protocolVersion)) "2024-11-05"
  ⟨req.id, some (JVal.jobj [
    ("protocolVersion", JVal.jstr clientProtocolVersion),
    ("capabilities", JVal.jobj [
      ("tools", JVal.jobj [("listChanged", JVal.jbool false)]),
      ("resources", JVal.jobj [("subscribe", JVal.jbool false),
        ("listChanged", JVal.jbool false)]),
      ("prompts", JVal.jobj [("listChanged", JVal.jbool false)])]),
    ("serverInfo", JVal.jobj ([
      ("name", JVal.jstr "Voltasis API Documentation Server"),
      ("version", JVal.jstr "1.0.0")] ++
      optField "environment" (stage.map JVal.jstr)))]), none⟩

/-- One tool descriptor of `handleToolsList`; per-property prose
descriptions are elided (no claim reads them), the structural parts —
property names, enums, defaults, the `[1,100]` pageSize bounds, the
required list — are kept. -/
def toolDescriptor (name desc : String) (props : List (String × JVal))
    (required : List String) : JVal :=
  JVal.jobj [("name", JVal.jstr name), ("description", JVal.jstr desc),
    ("inputSchema", JVal.jobj [("type", JVal.jstr "object"),
      ("properties", JVal.jobj props),
      ("required", encodeStrList required)])]

def pagingProps : List (String × JVal) :=
  [("page", JVal.jobj [("type", JVal.jstr "number"),
      ("default", JVal.jnum 0)]),
   ("pageSize", JVal.jobj [("type", JVal.jstr "number"),
      ("default", JVal.jnum 50), ("minimum", JVal.jnum 1),
      ("maximum", JVal.jnum 100)])]

/-- `handleToolsList` (handler.ts 217–397). -/
def toolsListJson : JVal :=
  JVal.jobj [("tools", JVal.jarr [
    toolDescriptor "search_documentation"
      "Search through Voltasis API documentation for relevant information"
      [("query", JVal.jobj [("type", JVal.jstr "string")]),
       ("category", JVal.jobj [("type", JVal.jstr "string"),
         ("enum", encodeStrList ["api", "guide", "reference", "all"]),
         ("default", JVal.jstr "all")])] ["query"],
    toolDescriptor "get_endpoint_details"
      "Get detailed information about a specific API endpoint"
      [("endpoint", JVal.jobj [("type", JVal.jstr "string")]),
       ("method", JVal.jobj [("type", JVal.jstr "string"),
         ("enum", encodeStrList ["GET", "POST", "PUT", "DELETE", "PATCH"])])]
      ["endpoint"],
    toolDescriptor "list_endpoints" "List all available API endpoints"
      ([("tag", JVal.jobj [("type", JVal.jstr "string")]),
        ("category", JVal.jobj [("type", JVal.jstr "string")])] ++
        pagingProps) [],
    toolDescriptor "get_schema"
      "Get TypeScript/JSON schema for a specific model"
      [("schemaName", JVal.jobj [("type", JVal.jstr "string")]),
       ("format", JVal.jobj [("type", JVal.jstr "string"),
         ("enum", encodeStrList ["typescript", "json"]),
         ("default", JVal.jstr "typescript")])] ["schemaName"],
    toolDescriptor "list_schemas" "List all available API schemas"
      pagingProps [],
    toolDescriptor "get_document" "Get any document by its ID or path"
      [("documentId", JVal.jobj [("type", JVal.jstr "string")])]
      ["documentId"],
    toolDescriptor "list_guides" "List all available guides" pagingProps [],
    toolDescriptor "list_resources" "List all available resources by category"
      ([("category", JVal.jobj [("type", JVal.jstr "string"),
          ("enum", encodeStrList ["api", "guide", "reference", "all"]),
          ("default", JVal.jstr "all")])] ++ pagingProps) []])]

/-- `handlePromptsList` (handler.ts 399–461); per-argument prose
descriptions elided. -/
def promptsListJson : JVal :=
  let arg := fun (n : String) (req : Bool) =>
    JVal.jobj [("name", JVal.jstr n), ("required", JVal.jbool req)]
  JVal.jobj [("prompts", JVal.jarr [
    JVal.jobj [("name", JVal.jstr "create_time_entry"),
      ("description",
        JVal.jstr "Template for creating a new time entry in Voltasis"),
      ("arguments", JVal.jarr [arg "project_name" true,
        arg "duration_hours" true, arg "description" false])],
    JVal.jobj [("name", JVal.jstr "api_integration_guide"),
      ("description",
        JVal.jstr "Step-by-step guide for integrating with Voltasis API"),
      ("arguments", JVal.jarr [arg "integration_type" true,
        arg "programming_language" false])],
    JVal.jobj [("name", JVal.jstr "debug_api_error"),
      ("description",
        JVal.jstr "Template for debugging common API errors"),
      ("arguments", JVal.jarr [arg "error_code" true,
        arg "endpoint" true])]])]

/-- Stand-in for the long interpolated prose of the prompt templates
(handler.ts 474–627); no claim inspects this text. -/
def promptUserText (name : String) : String := "user:" ++ name

def promptAssistantText (name : String) : String := "assistant:" ++ name

def promptResult (name : String) : JVal :=
  JVal.jobj [("messages", JVal.jarr [
    JVal.jobj [("role", JVal.jstr "user"), ("content", JVal.jobj
      [("type", JVal.jstr "text"),
       ("text", JVal.jstr (promptUserText name))])],
    JVal.jobj [("role", JVal.jstr "assistant"), ("content", JVal.jobj
      [("type", JVal.jstr "text"),
       ("text", JVal.jstr (promptAssistantText name))])]])]

/-- `handlePromptsGet` (handler.ts 463–645).  The template application
is total in the model, so its inner `catch` (`-32603 Failed to generate
prompt`) is unreachable here. -/
def handlePromptsGet (id : Option RpcId) (params : Option ReqParams) :
    MCPResponse :=
  let p := params.getD emptyReqParams
  match jsStrOpt p.name with
  | none => createErrorResponse id (-32602) "Missing required parameter: name"
  | some nm =>
    if nm = "create_time_entry" ∨ nm = "api_integration_guide" ∨
        nm = "debug_api_error" then
      ⟨id, some (promptResult nm), none⟩
    else createErrorResponse id (-32602) ("Unknown prompt: " ++ nm)

/-- `handleResourcesList` (handler.ts 647–674). -/
def handleResourcesList (store : List Item) (id : Option RpcId) :
    MCPResponse :=
  ⟨id, some (JVal.jobj [("resources", JVal.jarr
    ((handleResourcesListEntries store).map encodeResourceEntry))]), none⟩

/-- `handleResourceRead` (handler.ts 676–725). -/
def handleResourceRead (store : List Item) (blob : List (String × String))
    (id : Option RpcId) (params : Option ReqParams) : MCPResponse :=
  let p := params.getD emptyReqParams
  match jsStrOpt p.uri with
  | none => createErrorResponse id (-32602) "Missing required parameter: uri"
  | some uri =>
    let documentId := jsReplaceFirst uri "voltasis://" ""
    match findItem store documentId with
    | none => createErrorResponse id (-32602) ("Resource not found: " ++ uri)
    | some it =>
      let key := (jsStrOpt it.s3Key).getD (documentId ++ ".md")
      match findBlob blob key with
      | none => createErrorResponse id (-32603) "Failed to read resource"
      | some content => ⟨id, some (JVal.jobj [("contents", JVal.jarr
          [JVal.jobj [("uri", JVal.jstr uri),
            ("mimeType", JVal.jstr "text/markdown"),
            ("text", JVal.jstr content)]])]), none⟩

/-- `handleSamplingCreateMessage` (handler.ts 1202–1251): the
`messages` validation error, else the fixed not-supported error. -/
def handleSamplingCreateMessage (id : Option RpcId)
    (params : Option ReqParams) : MCPResponse :=
  let p := params.getD emptyReqParams
  match p.messages with
  | MessagesField.array (_ + 1) =>
    createErrorResponse id (-32601)
      "Sampling is not supported by this server. Sampling requires client-side LLM access."
  | _ => createErrorResponse id (-32602) "Missing required parameter: messages"

/-! ### `tools/call` dispatch (handler.ts 727–798) -/

/-- The tool dispatch table of `handleToolCall`; `none` is an unknown
tool name. -/
def runTool (store : List Item) (blob : List (String × String))
    (id : Option RpcId) (nm : String) (args : Option ToolArgs) :
    Option (Except Unit MCPResponse) :=
  match nm with
  | "search_documentation" =>
    some (Except.ok (searchDocumentationRPC store id args))
  | "get_endpoint_details" =>
    some (Except.ok (getEndpointDetailsRPC store id args))
  | "list_endpoints" => some (Except.ok (listEndpointsRPC store id args))
  | "get_schema" => some (getSchemaRPC store blob id args)
  | "list_schemas" => some (Except.ok (listSchemasRPC store id args))
  | "get_document" => some (Except.ok (getDocumentRPC store blob id args))
  | "list_guides" => some (Except.ok (listGuidesRPC store id args))
  | "list_resources" => some (Except.ok (listResourcesRPC store id args))
  | _ => none

/-- The MCP content-block double wrapping of a successful tool result
(handler.ts 781–793): `{ content: [{ type: 'text', text:
JSON.stringify(toolResult.result, null, 2) }] }`.  `stringify` is the
external `JSON.stringify` builtin. -/
def contentWrap (stringify : JVal → String) (id : Option RpcId)
    (result : Option JVal) : MCPResponse :=
  ⟨id, some (JVal.jobj [("content", JVal.jarr [JVal.jobj
    ([("type", JVal.jstr "text")] ++
     optField "text" (result.map (fun v => JVal.jstr (stringify v))))])]),
   none⟩

/-- `handleToolCall` (handler.ts 727–798). -/
def handleToolCall (store : List Item) (blob : List (String × String))
    (stringify : JVal → String) (id : Option RpcId)
    (params : Option ReqParams) : MCPResponse :=
  let p := params.getD emptyReqParams
  match jsStrOpt p.name with
  | none => createErrorResponse id (-32602) "Missing required parameter: name"
  | some nm =>
    match runTool store blob id nm p.arguments with
    | none => createErrorResponse id (-32602) ("Unknown tool: " ++ nm)
    | some (Except.error _) =>
      createErrorResponse id (-32603) "Tool execution failed"
    | some (Except.ok tr) =>
      match tr.error with
      | some _ => tr
      | none => contentWrap stringify id tr.result

/-! ### The Lambda router and HTTP status mapping (handler.ts 45–180) -/

/-- The `switch (request.method)` dispatch (handler.ts 66–105); an
absent `method` interpolates into the default branch's message as
`"undefined"`. -/
def lambdaRoute (store : List Item) (blob : List (String × String))
    (stage : Option String) (stringify : JVal → String)
    (req : RawRequest) : MCPResponse :=
  match req.method with
  | none => createErrorResponse req.id (-32601) "Method not found: undefined"
  | some m =>
    if m = "initialize" then handleInitialize stage req
    else if m = "tools/list" then ⟨req.id, some toolsListJson, none⟩
    else if m = "prompts/list" then ⟨req.id, some promptsListJson, none⟩
    else if m = "prompts/get" then handlePromptsGet req.id req.params
    else if m = "resources/list" then handleResourcesList store req.id
    else if m = "resources/read" then
      handleResourceRead store blob req.id req.params
    else if m = "tools/call" then
      handleToolCall store blob stringify req.id req.params
    else if m = "sampling/createMessage" then
      handleSamplingCreateMessage req.id req.params
    else createErrorResponse req.id (-32601) ("Method not found: " ++ m)

/-- handler.ts 24–25: 10 MB. -/
def MAX_RESPONSE_SIZE : Nat := 10 * 1024 * 1024

/-- The distinguished oversized-response body (handler.ts 117–136):
carries the actual byte size, the ceiling, and the pagination hint. -/
def sizeErrorBody (id : Option RpcId) (size : Nat) : MCPResponse :=
  ⟨id, none, some ⟨-32603, "Response too large", some (JVal.jobj
    [("size", JVal.jnum size), ("maxSize", JVal.jnum MAX_RESPONSE_SIZE),
     ("hint",
      JVal.jstr "Use pagination parameters to reduce response size")])⟩⟩

/-- The top-level catch body (handler.ts 161–176): `id: null`, code
`-32603`, the JS error message in `data`. -/
def internalErrorBody (msg : String) : MCPResponse :=
  ⟨none, none, some ⟨-32603, "Internal error",
    some (JVal.jobj [("message", JVal.jstr msg)])⟩⟩

structure LambdaResult where
  statusCode : Nat
  body : MCPResponse

/-- `lambdaHandler` (handler.ts 45–180).  The input is the outcome of
`JSON.parse(event.body || '{}')` — `Except.error msg` is a thrown
`SyntaxError` with message `msg`, landing in the catch block;
`serialize` is the external byte serialisation of the response envelope
(`Buffer.byteLength(JSON.stringify(response))` counts its length). -/
def lambdaHandler (store : List Item) (blob : List (String × String))
    (stage : Option String) (stringify : JVal → String)
    (serialize : MCPResponse → List Nat)
    (input : Except String RawRequest) : LambdaResult :=
  match input with
  | Except.error emsg => ⟨500, internalErrorBody emsg⟩
  | Except.ok req =>
    let response := lambdaRoute store blob stage stringify req
    let responseSize := (serialize response).length
    if responseSize > MAX_RESPONSE_SIZE then
      ⟨413, sizeErrorBody req.id responseSize⟩
    else ⟨200, response⟩

/-! ### The local stdio server line handler (part_007 305–331) and the
local sampling handler (protocol.ts 458–478) -/

/-- One line of the local stdio server: `JSON.parse(line)` throwing
lands in the catch, which emits a `-32700 Parse error` envelope with
`id: null` and the JS error message in `data`; otherwise the parsed
request goes to `MCPProtocolHandler.handleRequest` (quantified over
here — the parse-failure path never reaches it) and its response is
printed. -/
def localServerLine (handler : RawRequest → MCPResponse)
    (input : Except String RawRequest) : MCPResponse :=
  match input with
  | Except.error emsg =>
    ⟨none, none, some ⟨-32700, "Parse error",
      some (JVal.jobj [("message", JVal.jstr emsg)])⟩⟩
  | Except.ok req => handler req

/-- `MCPProtocolHandler.handleSamplingCreateMessage` (protocol.ts
458–478) composed with `handleRequest`'s catch (protocol.ts 99–110):
the thrown `MCPProtocolError`s become error envelopes.  The validation
and the fixed not-supported error are identical to the Lambda's. -/
def localHandleSamplingCreateMessage (id : Option RpcId)
    (params : Option ReqParams) : MCPResponse :=
  let p := params.getD emptyReqParams
  match p.messages with
  | MessagesField.array (_ + 1) =>
    createErrorResponse id (-32601)
      "Sampling is not supported by this server. Sampling requires client-side LLM access."
  | _ => createErrorResponse id (-32602) "Missing required parameter: messages"

/-! ## Theorems -/

theorem jsSlice_page {α : Type} (l : List α) (s p : Nat) :
    jsSlice l s (min (s + p) l.length) = (l.drop s).take p := by
  unfold jsSlice
  rw [← List.take_take, List.take_length, List.drop_take,
    Nat.add_sub_cancel_left]

theorem ceilDivNat_mul_ge (N p : Nat) (hp : 1 ≤ p) :
    N ≤ ceilDivNat N p * p := by
  unfold ceilDivNat
  have h1 := Nat.div_add_mod (N + p - 1) p
  have h2 : (N + p - 1) % p < p := Nat.mod_lt _ (by omega)
  have h3 : p * ((N + p - 1) / p) = ((N + p - 1) / p) * p := Nat.mul_comm _ _
  omega

theorem flatMap_range_take (l : List α) (p : Nat) :
    ∀ n, (List.range n).flatMap (fun k => (l.drop (k * p)).take p) =
      l.take (n * p) := by
  intro n
  induction n with
  | zero => simp
  | succ n ih =>
    rw [List.range_succ, List.flatMap_append, ih]
    simp only [List.flatMap_cons, List.flatMap_nil, List.append_nil]
    rw [Nat.succ_mul, List.take_add]

theorem pages_concat (l : List α) (p : Nat) (hp : 1 ≤ p) :
    (List.range (ceilDivNat l.length p)).flatMap
      (fun k => (l.drop (k * p)).take p) = l := by
  rw [flatMap_range_take]
  exact List.take_of_length_le (ceilDivNat_mul_ge l.length p hp)

/-- The page returned by `paginate` is the `page`-th chunk of size
`pageSize`. -/
theorem paginate_fst {α : Type} (l : List α) (page p : Nat) :
    (paginate l page p).1 = (l.drop (page * p)).take p := by
  unfold paginate
  simp only
  rw [jsSlice_page]

theorem paginate_pagesSpec {α β : Type} (cand : List α) (proj : α → β)
    (p : Nat) (hp : 1 ≤ p) :
    PagesSpec cand proj
      (fun page => ((paginate cand page p).1.map proj,
                    (paginate cand page p).2)) p := by
  have hmeta : ∀ page, (paginate cand page p).2 =
      ⟨page, p, JNum.nat (ceilDivNat cand.length p), cand.length,
       decide ((page : Int) <
         ((ceilDivNat cand.length p : Nat) : Int) - 1)⟩ := by
    intro page
    unfold paginate jsCeilDiv jsLtPredTotal ceilDivNat
    simp only
    rw [if_neg (by omega)]
  refine ⟨?_, ?_, ?_, ?_, ?_⟩
  · intro page
    simp only
    rw [paginate_fst]
    congr 1
    rw [Nat.succ_mul, jsSlice_page]
  · intro page
    exact hmeta page
  · simp only
    have : ∀ k, (paginate cand k p).1.map proj =
        ((cand.drop (k * p)).take p).map proj := by
      intro k; rw [paginate_fst]
    calc (List.range (ceilDivNat cand.length p)).flatMap
          (fun k => (paginate cand k p).1.map proj)
        = (List.range (ceilDivNat cand.length p)).flatMap
          (fun k => ((cand.drop (k * p)).take p).map proj) := by
          apply List.flatMap_congr; intro k _; exact this k
      _ = ((List.range (ceilDivNat cand.length p)).flatMap
          (fun k => (cand.drop (k * p)).take p)).map proj := by
          rw [List.map_flatMap]
      _ = cand.map proj := by rw [pages_concat cand p hp]
  · intro page h
    simp only [hmeta page]
    simp only [decide_eq_true_eq]
    omega
  · intro h
    simp only [hmeta _]
    simp only [decide_eq_false_iff_not, not_lt]
    omega

/-- C1: for every list-returning tool (`list_endpoints`, `list_schemas`,
`list_guides`, `list_resources`), given the tool's full candidate list of
length `N` and parameters `page` and `pageSize ≥ 1`, the returned page
equals `list.slice(page*pageSize, min((page+1)*pageSize, N))` (projected
to the tool's summary shape) and the returned pagination metadata equals
`{page, pageSize, totalPages = ceil(N/pageSize), totalItems = N,
hasMore = page < totalPages - 1}`; the concatenation of pages
`0 .. ceil(N/pageSize) - 1` is exactly the full candidate list, and
`hasMore` is true for every page except the last. -/
theorem c1_pagination_correct (store : List Item) (tag cat : Option String)
    (pageSize : Nat) (hp : 1 ≤ pageSize) :
    PagesSpec (listEndpointsCandidates store tag) endpointSummary
      (fun page =>
        ((listEndpointsTool store ⟨tag, cat, some page, some pageSize⟩).endpoints,
         (listEndpointsTool store ⟨tag, cat, some page, some pageSize⟩).pagination))
      pageSize ∧
    PagesSpec (listSchemasCandidates store) schemaSummary
      (fun page =>
        ((listSchemasTool store ⟨tag, cat, some page, some pageSize⟩).schemas,
         (listSchemasTool store ⟨tag, cat, some page, some pageSize⟩).pagination))
      pageSize ∧
    PagesSpec (listGuidesCandidates store) guideSummary
      (fun page =>
        ((listGuidesTool store ⟨tag, cat, some page, some pageSize⟩).guides,
         (listGuidesTool store ⟨tag, cat, some page, some pageSize⟩).pagination))
      pageSize ∧
    PagesSpec (listResourcesCandidates store (cat.getD "all")) resourceSummary
      (fun page =>
        ((listResourcesTool store ⟨tag, cat, some page, some pageSize⟩).resources,
         (listResourcesTool store ⟨tag, cat, some page, some pageSize⟩).pagination))
      pageSize :=
  ⟨paginate_pagesSpec _ _ _ hp, paginate_pagesSpec _ _ _ hp,
   paginate_pagesSpec _ _ _ hp, paginate_pagesSpec _ _ _ hp⟩

/-- Witness for C1 at a concrete store, `pageSize = 2`. -/
theorem c1_pagination_correct_witness :
    1 ≤ 2 ∧
    (PagesSpec (listEndpointsCandidates
        [⟨"e1", "E1", none, some ["endpoint"], "api", some "/a", some "GET",
          none, none⟩] none) endpointSummary
      (fun page =>
        ((listEndpointsTool
            [⟨"e1", "E1", none, some ["endpoint"], "api", some "/a", some "GET",
              none, none⟩] ⟨none, none, some page, some 2⟩).endpoints,
         (listEndpointsTool
            [⟨"e1", "E1", none, some ["endpoint"], "api", some "/a", some "GET",
              none, none⟩] ⟨none, none, some page, some 2⟩).pagination)) 2 ∧
     PagesSpec (listSchemasCandidates
        [⟨"e1", "E1", none, some ["endpoint"], "api", some "/a", some "GET",
          none, none⟩]) schemaSummary
      (fun page =>
        ((listSchemasTool
            [⟨"e1", "E1", none, some ["endpoint"], "api", some "/a", some "GET",
              none, none⟩] ⟨none, none, some page, some 2⟩).schemas,
         (listSchemasTool
            [⟨"e1", "E1", none, some ["endpoint"], "api", some "/a", some "GET",
              none, none⟩] ⟨none, none, some page, some 2⟩).pagination)) 2 ∧
     PagesSpec (listGuidesCandidates
        [⟨"e1", "E1", none, some ["endpoint"], "api", some "/a", some "GET",
          none, none⟩]) guideSummary
      (fun page =>
        ((listGuidesTool
            [⟨"e1", "E1", none, some ["endpoint"], "api", some "/a", some "GET",
              none, none⟩] ⟨none, none, some page, some 2⟩).guides,
         (listGuidesTool
            [⟨"e1", "E1", none, some ["endpoint"], "api", some "/a", some "GET",
              none, none⟩] ⟨none, none, some page, some 2⟩).pagination)) 2 ∧
     PagesSpec (listResourcesCandidates
        [⟨"e1", "E1", none, some ["endpoint"], "api", some "/a", some "GET",
          none, none⟩] ((none : Option String).getD "all")) resourceSummary
      (fun page =>
        ((listResourcesTool
            [⟨"e1", "E1", none, some ["endpoint"], "api", some "/a", some "GET",
              none, none⟩] ⟨none, none, some page, some 2⟩).resources,
         (listResourcesTool
            [⟨"e1", "E1", none, some ["endpoint"], "api", some "/a", some "GET",
              none, none⟩] ⟨none, none, some page, some 2⟩).pagination)) 2) :=
  ⟨by decide,
   c1_pagination_correct
     [⟨"e1", "E1", none, some ["endpoint"], "api", some "/a", some "GET",
       none, none⟩] none none 2 (by decide)⟩

/-- C5 counterexample: the supplied `pageSize` is **not** clamped to
`[1, 100]` — a call with `pageSize = 200` computes its pagination
metadata with `pageSize = 200`, a call with `pageSize = 0` computes it
with `pageSize = 0`, and with `pageSize = 0` on a non-empty store the
returned page is empty while `hasMore` is `true` (the JS
`Math.ceil(N/0)` is `Infinity`). -/
theorem c5_counterexample :
    (listEndpointsTool [] ⟨none, none, some 0, some 200⟩).pagination.pageSize
      = 200 ∧
    (listSchemasTool [] ⟨none, none, some 0, some 0⟩).pagination.pageSize
      = 0 ∧
    ((listGuidesTool [⟨"g1", "G1", none, none, "guide", none, none, none,
        none⟩] ⟨none, none, some 0, some 0⟩).guides = [] ∧
     (listGuidesTool [⟨"g1", "G1", none, none, "guide", none, none, none,
        none⟩] ⟨none, none, some 0, some 0⟩).pagination.hasMore = true) := by
  decide

/-- C5 (amended): for every list-returning tool, the effective `page`
is the supplied value, defaulting to `0` when absent, and the effective
`pageSize` is the supplied value, defaulting to `50` when absent — used
as-is with **no clamping** to `[1, 100]` (the bounds appear only in the
advertised `inputSchema`). -/
theorem c5_defaults_no_clamp (store : List Item) (args : ListArgs) :
    ((listEndpointsTool store args).pagination.page = args.page.getD 0 ∧
     (listEndpointsTool store args).pagination.pageSize
       = args.pageSize.getD 50) ∧
    ((listSchemasTool store args).pagination.page = args.page.getD 0 ∧
     (listSchemasTool store args).pagination.pageSize
       = args.pageSize.getD 50) ∧
    ((listGuidesTool store args).pagination.page = args.page.getD 0 ∧
     (listGuidesTool store args).pagination.pageSize
       = args.pageSize.getD 50) ∧
    ((listResourcesTool store args).pagination.page = args.page.getD 0 ∧
     (listResourcesTool store args).pagination.pageSize
       = args.pageSize.getD 50) :=
  ⟨⟨rfl, rfl⟩, ⟨rfl, rfl⟩, ⟨rfl, rfl⟩, ⟨rfl, rfl⟩⟩

/-! ### C10: the soft-delete status attribute is never consulted -/

theorem paginate_map {α β : Type} (f : α → β) (l : List α) (page p : Nat) :
    (paginate (l.map f) page p).1 = ((paginate l page p).1).map f ∧
    (paginate (l.map f) page p).2 = (paginate l page p).2 := by
  constructor
  · rw [paginate_fst, paginate_fst, List.map_take, List.map_drop]
  · unfold paginate
    simp

/-- C10: no listing or search operation (`search_documentation`,
`list_endpoints`, `list_schemas`, `list_guides`, `list_resources`, and
the `resources/list` method) excludes a `DOCUMENT` row on the basis of
its `deleted` status attribute: rewriting the `deleted` attribute of
every stored row arbitrarily leaves every one of these results
unchanged, and membership in each candidate list is characterised by
the category/tag filters alone, with no mention of `deleted`. -/
theorem filter_map_comm {α : Type} (g : α → α) (p : α → Bool)
    (hp : ∀ d, p (g d) = p d) (l : List α) :
    (l.map g).filter p = (l.filter p).map g := by
  rw [List.filter_map]
  congr 1
  exact List.filter_congr (fun d _ => hp d)

theorem listEndpointsCandidates_map_del (f : Item → Option Bool)
    (store : List Item) (tag : Option String) :
    listEndpointsCandidates (store.map (fun d => {d with deleted := f d})) tag
      = (listEndpointsCandidates store tag).map
          (fun d => {d with deleted := f d}) := by
  unfold listEndpointsCandidates
  cases tag with
  | none =>
    simp only
    rw [filter_map_comm (fun d : Item => {d with deleted := f d})
        (fun it : Item => it.category == "api") (fun d => rfl),
      filter_map_comm (fun d : Item => {d with deleted := f d})
        (fun it : Item => it.tags.isSome && jsOptIncludes it.tags "endpoint")
        (fun d => rfl)]
  | some t =>
    simp only
    rw [filter_map_comm (fun d : Item => {d with deleted := f d})
        (fun it : Item => it.category == "api") (fun d => rfl),
      filter_map_comm (fun d : Item => {d with deleted := f d})
        (fun it : Item => it.tags.isSome && jsOptIncludes it.tags "endpoint")
        (fun d => rfl)]
    split
    · rfl
    · rw [filter_map_comm (fun d : Item => {d with deleted := f d})
        (fun it : Item => jsOptIncludes it.tags t) (fun d => rfl)]

theorem listSchemasCandidates_map_del (f : Item → Option Bool)
    (store : List Item) :
    listSchemasCandidates (store.map (fun d => {d with deleted := f d}))
      = (listSchemasCandidates store).map (fun d => {d with deleted := f d}) := by
  unfold listSchemasCandidates
  rw [filter_map_comm (fun d : Item => {d with deleted := f d})
      (fun it : Item => it.category == "api") (fun d => rfl),
    filter_map_comm (fun d : Item => {d with deleted := f d})
      (fun it : Item => it.tags.isSome && jsOptIncludes it.tags "schema")
      (fun d => rfl)]

theorem listGuidesCandidates_map_del (f : Item → Option Bool)
    (store : List Item) :
    listGuidesCandidates (store.map (fun d => {d with deleted := f d}))
      = (listGuidesCandidates store).map (fun d => {d with deleted := f d}) :=
  filter_map_comm (fun d : Item => {d with deleted := f d})
    (fun it : Item => it.category == "guide") (fun _ => rfl) store

theorem listResourcesCandidates_map_del (f : Item → Option Bool)
    (store : List Item) (category : String) :
    listResourcesCandidates (store.map (fun d => {d with deleted := f d}))
        category
      = (listResourcesCandidates store category).map
          (fun d => {d with deleted := f d}) := by
  unfold listResourcesCandidates
  split
  · exact filter_map_comm (fun d : Item => {d with deleted := f d})
      (fun it : Item => it.category == category) (fun d => rfl) store
  · rfl

theorem searchCandidates_map_del (f : Item → Option Bool)
    (store : List Item) (category : String) :
    searchCandidates (store.map (fun d => {d with deleted := f d})) category
      = (searchCandidates store category).map
          (fun d => {d with deleted := f d}) := by
  unfold searchCandidates
  split
  · exact filter_map_comm (fun d : Item => {d with deleted := f d})
      (fun it : Item => it.category == category) (fun d => rfl) store
  · rfl

/-- C10: no listing or search operation (`search_documentation`,
`list_endpoints`, `list_schemas`, `list_guides`, `list_resources`, and
the `resources/list` method) excludes a `DOCUMENT` row on the basis of
its `deleted` status attribute: rewriting the `deleted` attribute of
every stored row arbitrarily leaves every one of these results
unchanged, and membership in each candidate list is characterised by
the category/tag filters alone, with no mention of `deleted`. -/
theorem c10_soft_delete_ignored (store : List Item)
    (f : Item → Option Bool) (args : ListArgs) (q category : String)
    (tag : Option String) (it : Item) :
    (listEndpointsTool (store.map (fun d => {d with deleted := f d})) args
       = listEndpointsTool store args ∧
     listSchemasTool (store.map (fun d => {d with deleted := f d})) args
       = listSchemasTool store args ∧
     listGuidesTool (store.map (fun d => {d with deleted := f d})) args
       = listGuidesTool store args ∧
     listResourcesTool (store.map (fun d => {d with deleted := f d})) args
       = listResourcesTool store args ∧
     searchResults (store.map (fun d => {d with deleted := f d})) q category
       = searchResults store q category ∧
     handleResourcesListEntries (store.map (fun d => {d with deleted := f d}))
       = handleResourcesListEntries store) ∧
    (it ∈ listEndpointsCandidates store tag ↔
      it ∈ store ∧ it.category = "api" ∧
      (it.tags.isSome ∧ jsOptIncludes it.tags "endpoint") ∧
      (∀ t, tag = some t → t ≠ "" → jsOptIncludes it.tags t)) ∧
    (it ∈ listSchemasCandidates store ↔
      it ∈ store ∧ it.category = "api" ∧
      (it.tags.isSome ∧ jsOptIncludes it.tags "schema")) ∧
    (it ∈ listGuidesCandidates store ↔ it ∈ store ∧ it.category = "guide") ∧
    (it ∈ listResourcesCandidates store category ↔
      it ∈ store ∧ (category ≠ "all" → it.category = category)) := by
  refine ⟨⟨?_, ?_, ?_, ?_, ?_, ?_⟩, ?_, ?_, ?_, ?_⟩
  · simp only [listEndpointsTool]
    rw [listEndpointsCandidates_map_del,
      (paginate_map _ _ _ _).1, (paginate_map _ _ _ _).2, List.map_map]
    rfl
  · simp only [listSchemasTool]
    rw [listSchemasCandidates_map_del,
      (paginate_map _ _ _ _).1, (paginate_map _ _ _ _).2, List.map_map]
    rfl
  · simp only [listGuidesTool]
    rw [listGuidesCandidates_map_del,
      (paginate_map _ _ _ _).1, (paginate_map _ _ _ _).2, List.map_map]
    rfl
  · simp only [listResourcesTool]
    rw [listResourcesCandidates_map_del,
      (paginate_map _ _ _ _).1, (paginate_map _ _ _ _).2, List.map_map]
    rfl
  · simp only [searchResults]
    rw [searchCandidates_map_del, filter_map_comm
      (fun d => {d with deleted := f d}) (searchMatch q) (fun d => rfl),
      List.map_map]
    rfl
  · simp only [handleResourcesListEntries]
    rw [List.map_map]
    rfl
  · unfold listEndpointsCandidates
    cases tag with
    | none => simp [List.mem_filter]; tauto
    | some t =>
      simp only
      split
      · next ht =>
        subst ht
        simp [List.mem_filter]
        tauto
      · next ht =>
        simp [List.mem_filter]
        intro _
        tauto
  · unfold listSchemasCandidates
    simp [List.mem_filter]
    tauto
  · unfold listGuidesCandidates
    simp [List.mem_filter]
  · unfold listResourcesCandidates
    split
    · next hc =>
      simp [List.mem_filter]
      tauto
    · next hc =>
      simp at hc
      simp [hc]


/-! ### C4: what `search_documentation` actually matches -/

theorem containsSub_iff (pat l : List Char) :
    containsSub pat l = true ↔ pat <:+: l := by
  induction l with
  | nil =>
    simp only [containsSub, List.isEmpty_iff]
    constructor
    · intro h; subst h; exact List.infix_refl _
    · intro h
      have := h.sublist
      simpa using List.sublist_nil.mp this
  | cons c rest ih =>
    simp only [containsSub, Bool.or_eq_true, List.isPrefixOf_iff_prefix, ih,
      List.infix_cons_iff]

theorem lowChars_append (a b : String) :
    lowChars (a ++ b) = lowChars a ++ lowChars b := by
  unfold lowChars
  rw [String.data_append, List.map_append]

/-- A member of a JS `join` is an infix of the joined string, after
lowercasing. -/
theorem lowChars_mem_jsJoin (sep t : String) (ts : List String)
    (ht : t ∈ ts) : lowChars t <:+: lowChars (jsJoin sep ts) := by
  induction ts with
  | nil => cases ht
  | cons s rest ih =>
    cases rest with
    | nil =>
      rcases List.mem_cons.mp ht with h | h
      · subst h; exact List.infix_refl _
      · cases h
    | cons s2 r2 =>
      rcases List.mem_cons.mp ht with h | h
      · subst h
        show lowChars t <:+: lowChars (t ++ sep ++ jsJoin sep (s2 :: r2))
        rw [lowChars_append, lowChars_append]
        exact ((List.prefix_append _ _).trans
          (List.prefix_append _ _)).isInfix
      · have hin := ih h
        show lowChars t <:+: lowChars (s ++ sep ++ jsJoin sep (s2 :: r2))
        rw [lowChars_append, lowChars_append]
        exact hin.trans (List.suffix_append _ _).isInfix

/-- Every document one of whose individual fields (title, description,
or a single tag) contains the query also matches the code's
concatenated-text test. -/
theorem specFieldMatch_implies_searchMatch (q : String) (it : Item)
    (h : specFieldMatch q it = true) : searchMatch q it = true := by
  unfold specFieldMatch at h
  unfold searchMatch searchableText
  rw [containsSub_iff]
  have hfull : lowChars (it.title ++ " " ++ jsInterp it.description ++ " " ++
      jsInterpJoin " " it.tags) =
      lowChars it.title ++ lowChars " " ++ lowChars (jsInterp it.description)
        ++ lowChars " " ++ lowChars (jsInterpJoin " " it.tags) := by
    rw [lowChars_append, lowChars_append, lowChars_append, lowChars_append]
  rw [hfull]
  simp only [Bool.or_eq_true] at h
  rcases h with (htitle | hdesc) | htag
  · rw [containsSub_iff] at htitle
    refine htitle.trans ?_
    exact (((List.prefix_append _ _).trans (List.prefix_append _ _)).trans
      ((List.prefix_append _ _).trans (List.prefix_append _ _))).isInfix
  · rcases hd : it.description with _ | d
    · rw [hd] at hdesc; exact absurd hdesc (by simp)
    · rw [hd] at hdesc
      rw [containsSub_iff] at hdesc
      refine hdesc.trans ?_
      simp only [jsInterp]
      exact ⟨lowChars it.title ++ lowChars " ",
        lowChars " " ++ lowChars (jsInterpJoin " " it.tags), by
          simp [List.append_assoc]⟩
  · rcases hts : it.tags with _ | ts
    · rw [hts] at htag; exact absurd htag (by simp)
    · rw [hts] at htag
      simp only [List.any_eq_true] at htag
      obtain ⟨t, htmem, htsub⟩ := htag
      rw [containsSub_iff] at htsub
      simp only [jsInterpJoin]
      exact (htsub.trans (lowChars_mem_jsJoin " " t ts htmem)).trans
        (List.suffix_append _ _).isInfix

/-- C4 counterexample: with the single stored document
`{id := "d1", title := "a", description := "b", no tags, category
"api"}` and query `"a b"`, `search_documentation` **returns** the
document although none of its fields (title, description, tags)
contains `"a b"` — the code matches against the space-joined
concatenation of the fields, so a query spanning a field boundary
matches; the result set is therefore not "exactly the documents whose
title, description, or tags contain the query". -/
theorem c4_counterexample :
    searchResults [⟨"d1", "a", some "b", none, "api", none, none, none,
        none⟩] "a b" "all"
      ≠ (([(⟨"d1", "a", some "b", none, "api", none, none, none,
            none⟩ : Item)].filter (specFieldMatch "a b")).map searchResultOf) ∧
    specFieldMatch "a b"
      ⟨"d1", "a", some "b", none, "api", none, none, none, none⟩ = false ∧
    searchResults [⟨"d1", "a", some "b", none, "api", none, none, none,
        none⟩] "a b" "all"
      = [⟨"d1", "a", "voltasis://d1", []⟩] := by
  decide

/-- C4 (amended): the Lambda `search_documentation` returns exactly
the documents (those passing the category restriction when
`category ≠ "all"`) whose **space-joined concatenation** of title,
description and tags — with absent fields rendered as the string
`"undefined"` — contains the query as a case-insensitive substring.
Consequently every document one of whose individual fields contains
the query is returned, and a query matching no stored document's
concatenated text yields an empty result list.  The local
`DocumentManager.searchDocuments` variant instead returns exactly the
documents whose title or some single tag contains the query
(descriptions are never searched — its index records none), and a
category other than `all`/`api`/`guides`/`reference` makes it throw. -/
theorem c4_search_characterization (store : List Item) (q category : String)
    (idx : LocalIndex) :
    (∀ r, r ∈ searchResults store q category ↔
      ∃ it, it ∈ searchCandidates store category ∧ searchMatch q it = true ∧
        r = searchResultOf it) ∧
    (∀ it, it ∈ searchCandidates store category →
      specFieldMatch q it = true →
      searchResultOf it ∈ searchResults store q category) ∧
    ((∀ it, it ∈ searchCandidates store category → searchMatch q it = false) →
      searchResults store q category = []) ∧
    (∀ d, localSearchDocuments idx q (some "all") =
        Except.ok ((idx.api ++ idx.guides ++ idx.reference).filter
          (localDocMatch q)) ∧
      (d ∈ (idx.api ++ idx.guides ++ idx.reference).filter (localDocMatch q)
        ↔ d ∈ idx.api ++ idx.guides ++ idx.reference ∧
          (containsSub (lowChars q) (lowChars d.title) = true ∨
           ∃ t ∈ d.tags, containsSub (lowChars q) (lowChars t) = true))) ∧
    localSearchDocuments idx q (some "guide") = Except.error () := by
  refine ⟨?_, ?_, ?_, ?_, ?_⟩
  · intro r
    simp only [searchResults, List.mem_map, List.mem_filter]
    constructor
    · rintro ⟨it, ⟨hmem, hm⟩, rfl⟩
      exact ⟨it, hmem, hm, rfl⟩
    · rintro ⟨it, hmem, hm, rfl⟩
      exact ⟨it, ⟨hmem, hm⟩, rfl⟩
  · intro it hmem hspec
    simp only [searchResults, List.mem_map, List.mem_filter]
    exact ⟨it, ⟨hmem, specFieldMatch_implies_searchMatch q it hspec⟩, rfl⟩
  · intro hnone
    unfold searchResults
    have hfil : (searchCandidates store category).filter (searchMatch q)
        = [] := by
      rw [List.filter_eq_nil_iff]
      intro it hmem
      simp [hnone it hmem]
    rw [hfil, List.map_nil]
  · intro d
    refine ⟨rfl, ?_⟩
    rw [List.mem_filter]
    unfold localDocMatch
    simp [List.any_eq_true]
  · rfl

theorem flushAux_spec (A : List Nat) :
    ∀ fuel (s : QState), s.pending.length ≤ fuel →
    s.out = List.range s.next →
    (∀ j, j ∈ s.pending ↔ j ∈ A ∧ s.next ≤ j) →
    (∀ j, j < s.next → j ∈ A) →
    s.pending.Nodup →
    QInv A (flushAux fuel s) := by
  intro fuel
  induction fuel with
  | zero =>
    intro s hlen hout hpend hlt hnd
    have hnil : s.pending = [] := List.eq_nil_of_length_eq_zero (by omega)
    simp only [flushAux]
    refine ⟨hout, hpend, hlt, hnd, ?_⟩
    rw [hnil]
    simp
  | succ fuel ih =>
    intro s hlen hout hpend hlt hnd
    rw [flushAux]
    by_cases h : s.next ∈ s.pending
    · rw [if_pos h]
      have hlen1 : (s.pending.erase s.next).length ≤ fuel := by
        rw [List.length_erase_of_mem h]
        have : 0 < s.pending.length := List.length_pos.mpr
          (List.ne_nil_of_mem h)
        omega
      refine ih ⟨s.pending.erase s.next, s.next + 1, s.out ++ [s.next]⟩
        hlen1 ?_ ?_ ?_ ?_
      · simp only
        rw [hout, List.range_succ]
      · intro j
        simp only
        rw [List.Nodup.mem_erase_iff hnd, hpend j]
        constructor
        · rintro ⟨hne, hA, hle⟩
          exact ⟨hA, by omega⟩
        · rintro ⟨hA, hle⟩
          exact ⟨by omega, hA, by omega⟩
      · intro j hj
        simp only at hj
        rcases Nat.lt_succ_iff_lt_or_eq.mp hj with h2 | h2
        · exact hlt j h2
        · subst h2; exact ((hpend s.next).mp h).1
      · exact hnd.erase _
    · rw [if_neg h]
      exact ⟨hout, hpend, hlt, hnd, h⟩

theorem receiveResponse_spec (seen : List Nat) (s : QState) (i : Nat)
    (hinv : QInv seen s) (hnew : i ∉ seen) :
    QInv (seen ++ [i]) (receiveResponse s i) := by
  obtain ⟨hout, hpend, hlt, hnd, _⟩ := hinv
  have hip : i ∉ s.pending := fun hc => hnew ((hpend i).mp hc).1
  have hile : s.next ≤ i := by
    by_contra hc
    exact hnew (hlt i (by omega))
  unfold receiveResponse sendQueuedResponses
  apply flushAux_spec (seen ++ [i]) _ _ le_rfl
  · exact hout
  · intro j
    simp only [List.mem_insert_iff, List.mem_append, List.mem_singleton]
    rw [hpend j]
    constructor
    · rintro (rfl | ⟨hs, hle⟩)
      · exact ⟨Or.inr rfl, hile⟩
      · exact ⟨Or.inl hs, hle⟩
    · rintro ⟨hs | rfl, hle⟩
      · exact Or.inr ⟨hs, hle⟩
      · exact Or.inl rfl
  · intro j hj
    exact List.mem_append_left _ (hlt j hj)
  · exact hnd.insert

theorem runResponses_inv :
    ∀ (arr seen : List Nat) (s : QState), QInv seen s →
    (seen ++ arr).Nodup → QInv (seen ++ arr) (arr.foldl receiveResponse s)
  | [], seen, s, hinv, _ => by simpa using hinv
  | i :: rest, seen, s, hinv, hnd => by
    have hnd' : ((seen ++ [i]) ++ rest).Nodup := by
      simpa [List.append_assoc] using hnd
    have hinew : i ∉ seen := by
      intro hc
      rw [List.nodup_append] at hnd
      exact hnd.2.2 hc (List.mem_cons_self _ _)
    have h1 : QInv (seen ++ [i]) (receiveResponse s i) :=
      receiveResponse_spec seen s i hinv hinew
    have h2 := runResponses_inv rest (seen ++ [i]) (receiveResponse s i)
      h1 hnd'
    simpa [List.append_assoc] using h2

theorem initial_inv : QInv [] initialQState := by
  refine ⟨rfl, ?_, ?_, List.nodup_nil, ?_⟩ <;> simp [initialQState]

/-- C2 counterexample: for the request id sequence `1, 2, 3` (dispatched
in that order, no request carries id `0`) where the response for id `2`
completes first, the bridge emits **nothing at all** — not the stream
`1, 2, 3`: the ordering gate waits forever for a response with id
`lastSentId + 1 = 0`.  All three responses stay buffered. -/
theorem c2_counterexample :
    (runResponses [2, 1, 3]).out = [] ∧
    (runResponses [2, 1, 3]).out ≠ [1, 2, 3] ∧
    (runResponses [2, 1, 3]).pending.length = 3 := by
  decide

/-- C2 (amended): the bridge's ordering buffer releases responses in
increasing-id order gated on consecutive ids starting at `0`
(`lastSentId` starts at `-1`).  Hence when the requests received on
stdin are assigned the consecutive ids `0 .. n-1` in arrival order, the
responses are emitted exactly as `0, 1, …, n-1` — the order the
requests were received — regardless of the order in which the outbound
HTTPS calls complete, and no response remains buffered; but an id
sequence that does not start at `0` (such as `1, 2, 3`) is never
emitted. -/
theorem c2_ordering_gate (n : Nat) (arrivals : List Nat)
    (hperm : arrivals.Perm (List.range n)) :
    (runResponses arrivals).out = List.range n ∧
    (runResponses arrivals).pending = [] := by
  have hnd : arrivals.Nodup := hperm.nodup_iff.mpr (List.nodup_range n)
  have hinv : QInv arrivals (runResponses arrivals) := by
    have := runResponses_inv arrivals [] initialQState initial_inv
      (by simpa using hnd)
    simpa using this
  obtain ⟨hout, hpend, hlt, _, hnotp⟩ := hinv
  have hmem : ∀ j, j ∈ arrivals ↔ j < n := by
    intro j
    rw [hperm.mem_iff, List.mem_range]
  set s := runResponses arrivals with hs
  have hnextn : s.next = n := by
    have h1 : s.next ≤ n := by
      by_contra hc
      have : n ∈ arrivals := hlt n (by omega)
      rw [hmem n] at this
      omega
    have h2 : ¬ s.next < n := by
      intro hc
      exact hnotp ((hpend s.next).mpr ⟨(hmem s.next).mpr hc, le_rfl⟩)
    omega
  constructor
  · rw [hout, hnextn]
  · rw [List.eq_nil_iff_forall_not_mem]
    intro j hj
    have := (hpend j).mp hj
    rw [hmem j] at this
    omega

/-- Witness for C2 (amended) at `n = 3`, arrival (completion) order
`1, 0, 2`. -/
theorem c2_ordering_gate_witness :
    ([1, 0, 2] : List Nat).Perm (List.range 3) ∧
    ((runResponses [1, 0, 2]).out = List.range 3 ∧
     (runResponses [1, 0, 2]).pending = []) :=
  ⟨by decide, c2_ordering_gate 3 [1, 0, 2] (by decide)⟩

/-! ### Status-code and size-guard lemmas -/

theorem lambdaHandler_err (store : List Item) (blob : List (String × String))
    (stage : Option String) (stringify : JVal → String)
    (serialize : MCPResponse → List Nat) (emsg : String) :
    lambdaHandler store blob stage stringify serialize (Except.error emsg)
      = ⟨500, internalErrorBody emsg⟩ := rfl

theorem lambdaHandler_ok (store : List Item) (blob : List (String × String))
    (stage : Option String) (stringify : JVal → String)
    (serialize : MCPResponse → List Nat) (req : RawRequest) :
    ((serialize (lambdaRoute store blob stage stringify req)).length >
        MAX_RESPONSE_SIZE →
      lambdaHandler store blob stage stringify serialize (Except.ok req) =
        ⟨413, sizeErrorBody req.id
          (serialize (lambdaRoute store blob stage stringify req)).length⟩) ∧
    ((serialize (lambdaRoute store blob stage stringify req)).length ≤
        MAX_RESPONSE_SIZE →
      lambdaHandler store blob stage stringify serialize (Except.ok req) =
        ⟨200, lambdaRoute store blob stage stringify req⟩) := by
  constructor
  · intro h
    simp only [lambdaHandler]
    rw [if_pos h]
  · intro h
    simp only [lambdaHandler]
    rw [if_neg (by omega)]

/-- C3: for every parsed request, if the serialized response body
exceeds the 10 MB ceiling the server returns HTTP 413 with the
distinguished size-limit error body — carrying the actual byte size,
the ceiling and the pagination hint — and carries no `result` (so never
a truncated body); a response at or below the ceiling is returned
unmodified with status 200. -/
theorem c3_size_guard (store : List Item) (blob : List (String × String))
    (stage : Option String) (stringify : JVal → String)
    (serialize : MCPResponse → List Nat) (req : RawRequest) :
    ((serialize (lambdaRoute store blob stage stringify req)).length >
        MAX_RESPONSE_SIZE →
      lambdaHandler store blob stage stringify serialize (Except.ok req) =
        ⟨413, sizeErrorBody req.id
          (serialize (lambdaRoute store blob stage stringify req)).length⟩ ∧
      (lambdaHandler store blob stage stringify serialize
        (Except.ok req)).body.result = none) ∧
    ((serialize (lambdaRoute store blob stage stringify req)).length ≤
        MAX_RESPONSE_SIZE →
      lambdaHandler store blob stage stringify serialize (Except.ok req) =
        ⟨200, lambdaRoute store blob stage stringify req⟩) := by
  refine ⟨fun h => ⟨(lambdaHandler_ok _ _ _ _ _ _).1 h, ?_⟩,
    (lambdaHandler_ok _ _ _ _ _ _).2⟩
  rw [(lambdaHandler_ok store blob stage stringify serialize req).1 h]
  rfl

/-- Witness for C3's oversized branch: a serializer producing
`MAX_RESPONSE_SIZE + 1` bytes yields the 413 size-limit error. -/
theorem c3_size_guard_witness :
    lambdaHandler [] [] none (fun _ => "")
      (fun _ => List.replicate (MAX_RESPONSE_SIZE + 1) 0)
      (Except.ok ⟨some "2.0", some (RpcId.num 1), some "tools/list", none⟩)
      = ⟨413, sizeErrorBody (some (RpcId.num 1)) (MAX_RESPONSE_SIZE + 1)⟩ := by
  have h := (c3_size_guard [] [] none (fun _ => "")
    (fun _ => List.replicate (MAX_RESPONSE_SIZE + 1) 0)
    ⟨some "2.0", some (RpcId.num 1), some "tools/list", none⟩).1
  simp only [List.length_replicate] at h
  exact (h (by omega)).1

/-- C6 counterexample: a request whose body is not valid JSON (so
`JSON.parse` throws) is answered with HTTP status **500** — neither 200
nor the 413 size-guard status — carrying a `-32603` internal error, so
not every non-size-guard failure is carried in a 200 response. -/
theorem c6_counterexample :
    (lambdaHandler [] [] none (fun _ => "") (fun _ => [])
      (Except.error "Unexpected token")).statusCode = 500 ∧
    (500 : Nat) ≠ 200 ∧ (500 : Nat) ≠ 413 ∧
    ((lambdaHandler [] [] none (fun _ => "") (fun _ => [])
      (Except.error "Unexpected token")).body.error.map
        (fun e => e.code)) = some (-32603) :=
  ⟨rfl, by decide, by decide, rfl⟩

/-- C6 (amended): on the HTTP transport every request whose body parses
is answered 200 — logical JSON-RPC failures (unknown method, unknown
tool, not-found, validation, handler errors) travel in the 200 body —
except the oversized-response case, answered 413; but a request whose
body fails to parse is answered HTTP **500** with a `-32603` internal
error envelope. -/
theorem c6_status_codes (store : List Item) (blob : List (String × String))
    (stage : Option String) (stringify : JVal → String)
    (serialize : MCPResponse → List Nat) (input : Except String RawRequest) :
    (∀ emsg, input = Except.error emsg →
      lambdaHandler store blob stage stringify serialize input =
        ⟨500, internalErrorBody emsg⟩) ∧
    (∀ req, input = Except.ok req →
      ((serialize (lambdaRoute store blob stage stringify req)).length ≤
          MAX_RESPONSE_SIZE →
        lambdaHandler store blob stage stringify serialize input =
          ⟨200, lambdaRoute store blob stage stringify req⟩) ∧
      ((serialize (lambdaRoute store blob stage stringify req)).length >
          MAX_RESPONSE_SIZE →
        (lambdaHandler store blob stage stringify serialize
          input).statusCode = 413)) := by
  constructor
  · rintro emsg rfl
    exact lambdaHandler_err _ _ _ _ _ _
  · rintro req rfl
    refine ⟨(lambdaHandler_ok _ _ _ _ _ _).2, fun h => ?_⟩
    rw [(lambdaHandler_ok store blob stage stringify serialize req).1 h]

/-- C7 counterexample: the parsed object
`{id: 1, method: "initialize"}` — a malformed envelope by the claim,
since it has no `jsonrpc` field — is **served normally**: HTTP 200, no
error, a `result` present; no parse or invalid-request error code is
produced. -/
theorem c7_counterexample :
    (lambdaHandler [] [] none (fun _ => "") (fun _ => [])
      (Except.ok ⟨none, some (RpcId.num 1), some "initialize",
        none⟩)).statusCode = 200 ∧
    (lambdaHandler [] [] none (fun _ => "") (fun _ => [])
      (Except.ok ⟨none, some (RpcId.num 1), some "initialize",
        none⟩)).body.error.isNone = true ∧
    (lambdaHandler [] [] none (fun _ => "") (fun _ => [])
      (Except.ok ⟨none, some (RpcId.num 1), some "initialize",
        none⟩)).body.result.isSome = true :=
  ⟨rfl, rfl, rfl⟩

/-- C7 (amended): malformed input is always recovered locally into a
well-formed JSON-RPC error response and never crashes the process, but
the codes are: input that fails to parse yields `-32603` (internal
error, HTTP 500) on the Lambda transport and `-32700` (parse error) on
the local stdio server; a parsed object without `method` yields
`-32601` (`Method not found: undefined`); and the `jsonrpc` field is
never validated — routing is entirely independent of it, so an envelope
missing only `jsonrpc` is processed normally. -/
theorem c7_malformed_envelopes (store : List Item)
    (blob : List (String × String)) (stage : Option String)
    (stringify : JVal → String) (serialize : MCPResponse → List Nat) :
    (∀ emsg, lambdaHandler store blob stage stringify serialize
        (Except.error emsg) = ⟨500, internalErrorBody emsg⟩) ∧
    (∀ req : RawRequest, req.method = none →
      lambdaRoute store blob stage stringify req =
        createErrorResponse req.id (-32601) "Method not found: undefined") ∧
    (∀ (handler : RawRequest → MCPResponse) (emsg : String),
      localServerLine handler (Except.error emsg) =
        ⟨none, none, some ⟨-32700, "Parse error",
          some (JVal.jobj [("message", JVal.jstr emsg)])⟩⟩) ∧
    (∀ (req : RawRequest) (jr : Option String),
      lambdaRoute store blob stage stringify {req with jsonrpc := jr} =
        lambdaRoute store blob stage stringify req) := by
  refine ⟨fun emsg => rfl, ?_, fun handler emsg => rfl, ?_⟩
  · intro req h
    unfold lambdaRoute
    rw [h]
  · intro req jr
    cases req
    rfl

/-- C8 counterexample: `sampling/createMessage` with an empty params
object is answered with the `-32602 Missing required parameter:
messages` validation error — not the fixed not-supported error
(`-32601`) — so the method's error is not always the same. -/
theorem c8_counterexample :
    ((handleSamplingCreateMessage (some (RpcId.num 1))
      (some emptyReqParams)).error.map (fun e => (e.code, e.message))) =
      some (-32602, "Missing required parameter: messages") ∧
    ¬ (((handleSamplingCreateMessage (some (RpcId.num 1))
      (some emptyReqParams)).error.map (fun e => e.code)) =
        some (-32601)) :=
  ⟨rfl, by decide⟩

/-- C8 (amended): `sampling/createMessage` never returns a result, on
either implementation; it returns the fixed not-supported error
(`-32601`) exactly when `params.messages` is a non-empty array, and the
`-32602 Missing required parameter: messages` validation error
otherwise. -/
theorem c8_sampling_not_supported (id : Option RpcId)
    (params : Option ReqParams) :
    ((handleSamplingCreateMessage id params).result = none ∧
     (localHandleSamplingCreateMessage id params).result = none) ∧
    (∀ n, (params.getD emptyReqParams).messages = MessagesField.array (n + 1) →
      handleSamplingCreateMessage id params = createErrorResponse id (-32601)
        "Sampling is not supported by this server. Sampling requires client-side LLM access." ∧
      localHandleSamplingCreateMessage id params = createErrorResponse id
        (-32601)
        "Sampling is not supported by this server. Sampling requires client-side LLM access.") ∧
    ((∀ n, (params.getD emptyReqParams).messages ≠
        MessagesField.array (n + 1)) →
      handleSamplingCreateMessage id params = createErrorResponse id (-32602)
        "Missing required parameter: messages" ∧
      localHandleSamplingCreateMessage id params = createErrorResponse id
        (-32602) "Missing required parameter: messages") := by
  refine ⟨?_, ?_, ?_⟩
  · simp only [handleSamplingCreateMessage, localHandleSamplingCreateMessage]
    rcases (params.getD emptyReqParams).messages with _ | _ | n
    · exact ⟨rfl, rfl⟩
    · exact ⟨rfl, rfl⟩
    · cases n
      · exact ⟨rfl, rfl⟩
      · exact ⟨rfl, rfl⟩
  · intro n hm
    simp only [handleSamplingCreateMessage, localHandleSamplingCreateMessage]
    rw [hm]
    exact ⟨rfl, rfl⟩
  · intro hne
    rcases hm : (params.getD emptyReqParams).messages with _ | _ | n
    · simp [handleSamplingCreateMessage, localHandleSamplingCreateMessage, hm]
    · simp [handleSamplingCreateMessage, localHandleSamplingCreateMessage, hm]
    · cases n with
      | zero =>
        simp [handleSamplingCreateMessage, localHandleSamplingCreateMessage,
          hm]
      | succ m => exact absurd hm (hne m)

/-! ### C9: the MCP content-block double wrapping of tool results -/

theorem searchDocumentationRPC_shape (store : List Item) (id : Option RpcId)
    (args : Option ToolArgs)
    (he : (searchDocumentationRPC store id args).error = none) :
    ∃ v, (searchDocumentationRPC store id args).result = some v := by
  simp only [searchDocumentationRPC] at *
  split at he
  · exact absurd he (by simp [createErrorResponse])
  · exact ⟨_, rfl⟩

theorem getEndpointDetailsRPC_shape (store : List Item) (id : Option RpcId)
    (args : Option ToolArgs)
    (he : (getEndpointDetailsRPC store id args).error = none) :
    ∃ v, (getEndpointDetailsRPC store id args).result = some v := by
  simp only [getEndpointDetailsRPC] at *
  split at he
  · exact absurd he (by simp [createErrorResponse])
  · split at he
    · exact absurd he (by simp [createErrorResponse])
    · exact ⟨_, rfl⟩

theorem getSchemaRPC_shape (store : List Item) (blob : List (String × String))
    (id : Option RpcId) (args : Option ToolArgs) (tr : MCPResponse)
    (h : getSchemaRPC store blob id args = Except.ok tr)
    (he : tr.error = none) : ∃ v, tr.result = some v := by
  simp only [getSchemaRPC] at h
  split at h
  · cases h
    exact absurd he (by simp [createErrorResponse])
  · split at h
    · cases h
      exact absurd he (by simp [createErrorResponse])
    · split at h
      · cases h
      · cases h
        exact ⟨_, rfl⟩

theorem getDocumentRPC_shape (store : List Item)
    (blob : List (String × String)) (id : Option RpcId)
    (args : Option ToolArgs)
    (he : (getDocumentRPC store blob id args).error = none) :
    ∃ v, (getDocumentRPC store blob id args).result = some v := by
  simp only [getDocumentRPC] at *
  split at he
  · exact absurd he (by simp [createErrorResponse])
  · split at he
    · exact absurd he (by simp [createErrorResponse])
    · split at he
      · exact absurd he (by simp [createErrorResponse])
      · exact ⟨_, rfl⟩

/-- Every dispatched tool whose outcome is a thrown-free response with
no `error` carries a `result`. -/
theorem runTool_ok_result (store : List Item) (blob : List (String × String))
    (id : Option RpcId) (nm : String) (args : Option ToolArgs)
    (tr : MCPResponse)
    (h : runTool store blob id nm args = some (Except.ok tr))
    (he : tr.error = none) : ∃ v, tr.result = some v := by
  unfold runTool at h
  split at h
  · simp only [Option.some.injEq, Except.ok.injEq] at h
    subst h
    exact searchDocumentationRPC_shape store id args he
  · simp only [Option.some.injEq, Except.ok.injEq] at h
    subst h
    exact getEndpointDetailsRPC_shape store id args he
  · simp only [Option.some.injEq, Except.ok.injEq] at h
    subst h
    exact ⟨_, rfl⟩
  · simp only [Option.some.injEq] at h
    exact getSchemaRPC_shape store blob id args tr h he
  · simp only [Option.some.injEq, Except.ok.injEq] at h
    subst h
    exact ⟨_, rfl⟩
  · simp only [Option.some.injEq, Except.ok.injEq] at h
    subst h
    exact getDocumentRPC_shape store blob id args he
  · simp only [Option.some.injEq, Except.ok.injEq] at h
    subst h
    exact ⟨_, rfl⟩
  · simp only [Option.some.injEq, Except.ok.injEq] at h
    subst h
    exact ⟨_, rfl⟩
  · exact absurd h (by simp)

/-- C9: for every `tools/call` request whose named tool executes
successfully (the dispatch returns a response with no error), the
JSON-RPC result is the tool's structured result wrapped a second time
into the MCP content-block format `{ content: [{ type: "text", text:
<JSON-stringified result> }] }` — the `text` field is exactly the
serialisation of the tool's result. -/
theorem c9_tool_result_wrapping (store : List Item)
    (blob : List (String × String)) (stringify : JVal → String)
    (id : Option RpcId) (params : Option ReqParams) (nm : String)
    (tr : MCPResponse)
    (hname : jsStrOpt (params.getD emptyReqParams).name = some nm)
    (hrun : runTool store blob id nm (params.getD emptyReqParams).arguments
      = some (Except.ok tr))
    (herr : tr.error = none) :
    ∃ v, tr.result = some v ∧
      handleToolCall store blob stringify id params =
        ⟨id, some (JVal.jobj [("content", JVal.jarr [JVal.jobj
          [("type", JVal.jstr "text"),
           ("text", JVal.jstr (stringify v))]])]), none⟩ := by
  obtain ⟨v, hv⟩ := runTool_ok_result store blob id nm
    (params.getD emptyReqParams).arguments tr hrun herr
  refine ⟨v, hv, ?_⟩
  simp only [handleToolCall, hname, hrun, herr, contentWrap, hv, optField,
    Option.map_some]
  rfl

/-- Witness for C9: a concrete successful `list_endpoints` call. -/
theorem c9_tool_result_wrapping_witness :
    ∃ v, (listEndpointsRPC [] (some (RpcId.num 7)) none).result = some v ∧
      handleToolCall [] [] (fun _ => "J") (some (RpcId.num 7))
        (some ⟨none, some "list_endpoints", none, none,
          MessagesField.absent⟩) =
        ⟨some (RpcId.num 7), some (JVal.jobj [("content", JVal.jarr
          [JVal.jobj [("type", JVal.jstr "text"),
            ("text", JVal.jstr ((fun _ => "J") v))]])]), none⟩ :=
  c9_tool_result_wrapping [] [] (fun _ => "J") (some (RpcId.num 7))
    (some ⟨none, some "list_endpoints", none, none, MessagesField.absent⟩)
    "list_endpoints" (listEndpointsRPC [] (some (RpcId.num 7)) none)
    rfl rfl rfl

end Voltasis
